import Mathlib

/-!
spray: the Baseline record and its comparators (`pkg/baseline.go`)

A shallow embedding of `pkg/baseline.go`.

* A Go `[]byte` and a Go `string` are both byte sequences: `List UInt8`.
* A Go `int` is an `Int`; the one place where machine arithmetic is visible,
  the subtraction in `Compare`, wraps at 64 bits (`intSub`).
* The embedded `*parsers.Hashes` pointer is an `Option Hashes`; reading a
  field through a nil pointer is a run-time panic, modelled by `none` as the
  result of the function that does it.
* What `baseline.go` calls but does not define (`net/url`, the `parsers`
  library, the extractor registry, the fingerprint detector, the `ihttp`
  constant) is collected in the record `Lib` and taken as a parameter.
* `json.Marshal` on a `*Baseline` is the object of the fields that the struct
  tags declare, rendered as `encoding/json` renders strings, integers and
  booleans; the encoders of `Frameworks` and `Extracteds` and the tags of
  `parsers.Hashes` are the parameter record `JsonLib`.
-/

namespace Spray

/-- A Go byte slice. -/
abbrev Bytes := List UInt8

/-- A Go string: an immutable byte sequence. -/
abbrev GoString := List UInt8

/-- The bytes of a source string literal (UTF-8). -/
def lit (s : String) : GoString := s.data.flatMap String.utf8EncodeChar

/-- The struct `parsers.Hashes`, restricted to the two fields that
`baseline.go` reads. -/
structure Hashes where
  BodyMd5 : GoString
  BodySimhash : GoString
deriving DecidableEq

/-- Modelled from the spec: the transport's response object `ihttp.Response`,
"a response object exposing statusCode() -> int, body() -> bytes,
contentLength() -> int, header() -> bytes, getHeader(name) -> string, and a
discriminator indicating whether virtual-host targeting was used". -/
structure Response where
  StatusCode : Int
  Body : Bytes
  ContentLength : Int
  Header : Bytes
  GetHeader : GoString → GoString
  ClientType : Int

/-- Everything `baseline.go` calls and does not define. `F` is the type
`Frameworks`, `X` the type `Extracteds`; `nilF` and `nilX` are their zero
values. -/
structure Lib (F X : Type) where
  /-- The `Path` of `url.Parse(u)`, or `none` when it returns an error. -/
  urlParsePath : GoString → Option GoString
  /-- The constant `ihttp.STANDARD`. -/
  STANDARD : Int
  /-- The function `parsers.MatchTitle`. -/
  MatchTitle : GoString → GoString
  /-- The function `parsers.NewHashes`. -/
  NewHashes : Bytes → Hashes
  /-- The function `parsers.Md5Hash`. -/
  Md5Hash : Bytes → GoString
  /-- The function `parsers.SimhashCompare`, a `uint8`. -/
  SimhashCompare : GoString → GoString → Nat
  /-- The method `Extractors.Extract`. -/
  Extract : GoString → X
  /-- The function `FingerDetect`. -/
  FingerDetect : GoString → F
  /-- The method `Frameworks.ToString`. -/
  ToString : F → GoString
  nilF : F
  nilX : X

/-- The struct `Baseline`. -/
structure Baseline (F X : Type) where
  Url : GoString
  Path : GoString
  Host : GoString
  Body : Bytes
  BodyLength : Int
  Header : Bytes
  Raw : Bytes
  HeaderLength : Int
  RedirectURL : GoString
  Status : Int
  IsDynamicUrl : Bool
  Spended : Int
  Title : GoString
  Frameworks : F
  Extracteds : X
  Err : GoString
  Reason : GoString
  IsValid : Bool
  IsFuzzy : Bool
  Hashes : Option Hashes

variable {F X : Type}

/-- The zero value of `Baseline`, what `&Baseline{}` starts from. -/
def zeroBaseline (L : Lib F X) : Baseline F X :=
  { Url := [], Path := [], Host := [], Body := [], BodyLength := 0, Header := [],
    Raw := [], HeaderLength := 0, RedirectURL := [], Status := 0,
    IsDynamicUrl := false, Spended := 0, Title := [], Frameworks := L.nilF,
    Extracteds := L.nilX, Err := [], Reason := [], IsValid := false,
    IsFuzzy := false, Hashes := none }

/-- The path assigned after `url.Parse(u)`: `uu.Path` when `err == nil`, and
the zero value otherwise. -/
def parsedPath (L : Lib F X) (u : GoString) : GoString :=
  match L.urlParsePath u with
  | some p => p
  | none => []

/-- The host assigned by the constructors: `host` when the client type is
`ihttp.STANDARD`. -/
def hostFor (L : Lib F X) (host : GoString) (resp : Response) : GoString :=
  if resp.ClientType = L.STANDARD then host else []

/-- The constructor `NewBaseline`. -/
def NewBaseline (L : Lib F X) (u host : GoString) (resp : Response) : Baseline F X :=
  { zeroBaseline L with
    Url := u
    Status := resp.StatusCode
    IsValid := true
    Path := parsedPath L u
    Host := hostFor L host resp
    Body := resp.Body
    BodyLength := resp.ContentLength
    Header := resp.Header
    HeaderLength := (resp.Header.length : Int)
    RedirectURL := resp.GetHeader (lit "Location")
    Raw := resp.Header ++ resp.Body }

/-- The constructor `NewInvalidBaseline`. -/
def NewInvalidBaseline (L : Lib F X) (u host : GoString) (resp : Response)
    (reason : GoString) : Baseline F X :=
  { zeroBaseline L with
    Url := u
    Status := resp.StatusCode
    IsValid := false
    Reason := reason
    Path := parsedPath L u
    Host := hostFor L host resp
    Body := resp.Body
    BodyLength := resp.ContentLength
    RedirectURL := resp.GetHeader (lit "Location") }

/-- The method `Collect`. -/
def Collect (L : Lib F X) (bl : Baseline F X) : Baseline F X :=
  { bl with
    Title := if 0 < bl.Body.length then L.MatchTitle bl.Body else bl.Title
    Hashes := some (L.NewHashes bl.Raw)
    Extracteds := L.Extract bl.Raw
    Frameworks := L.FingerDetect bl.Raw }

/-- Wrap of an integer to the 64 bits of a signed machine integer. -/
def wrap64 (x : Int) : Int := (x + 2 ^ 63) % 2 ^ 64 - 2 ^ 63

/-- Subtraction of two Go `int`s (64 bits). -/
def intSub (a b : Int) : Int := wrap64 (a - b)

/-- Whether `s` starts with `p`. -/
def startsWith : (s p : GoString) → Bool
  | _, [] => true
  | [], _ :: _ => false
  | c :: s, d :: p => c == d && startsWith s p

/-- The function `strings.Contains`: whether `substr` occurs within `s`. -/
def stringsContains : (s substr : GoString) → Bool
  | [], substr => startsWith [] substr
  | c :: s, substr => startsWith (c :: s) substr || stringsContains s substr

/-- The test `math.Abs(float64(bl.BodyLength-other.BodyLength)) < 16`. The
conversion of a 64-bit integer to `float64` is monotone and exact on
`-16 .. 16`, so the test is the same test on the integer difference. -/
def lengthNear (a b : Int) : Bool := decide ((intSub a b).natAbs < 16)

/-- The method `Compare`: `1` totally equal, `0` maybe equal, `-1` not
equal; `none` is the panic of reading `bl.BodyMd5` through a nil `Hashes`. -/
def Compare (L : Lib F X) (bl other : Baseline F X) : Option Int :=
  if other.RedirectURL ≠ [] ∧ bl.RedirectURL = other.RedirectURL then
    some 1
  else if lengthNear bl.BodyLength other.BodyLength then
    match bl.Hashes with
    | none => none
    | some h => if h.BodyMd5 = L.Md5Hash other.Body then some 1 else some 0
  else if stringsContains other.Body other.Path then
    some 0
  else
    some (-1)

/-- The method `FuzzyCompare`, with the package variable `Distance` as a
parameter; `none` is the panic of reading `BodySimhash` through a nil
`Hashes` (of `other` first, then of `bl`). -/
def FuzzyCompare (L : Lib F X) (Distance : Nat) (bl other : Baseline F X) : Option Bool :=
  match other.Hashes, bl.Hashes with
  | some ho, some hb =>
    if L.SimhashCompare ho.BodySimhash hb.BodySimhash < Distance then some true
    else some false
  | _, _ => none

/-- The decimal digits of a natural number, as bytes. -/
def natDigits (n : Nat) : GoString := (Nat.toDigits 10 n).map (fun c => UInt8.ofNat c.toNat)

/-- The function `strconv.Itoa`. -/
def Itoa (n : Int) : GoString :=
  if n < 0 then (45 : UInt8) :: natDigits n.natAbs else natDigits n.natAbs

/-- The method `Get`. -/
def Get (L : Lib F X) (bl : Baseline F X) (key : GoString) : GoString :=
  if key = lit "url" then bl.Url
  else if key = lit "host" then bl.Host
  else if key = lit "title" then bl.Title
  else if key = lit "redirect" then bl.RedirectURL
  else if key = lit "md5" then
    match bl.Hashes with
    | some h => h.BodyMd5
    | none => []
  else if key = lit "simhash" then
    match bl.Hashes with
    | some h => h.BodySimhash
    | none => []
  else if key = lit "mmh3" then
    match bl.Hashes with
    | some h => h.BodySimhash
    | none => []
  else if key = lit "stat" ∨ key = lit "status" then Itoa bl.Status
  else if key = lit "spend" then Itoa bl.Spended
  else if key = lit "frame" ∨ key = lit "framework" then L.ToString bl.Frameworks
  else []

/-- Modelled from the spec: a stand-in for the external collaborators, used
to evaluate the code on concrete inputs. The hash-bundle follows "the
source computes the hash-bundle from raw"; the digest is the identity, which
like a real digest separates the short inputs used below; the distance is
the difference of lengths; a URL that is only a path parses to that path. -/
def specLib : Lib (List GoString) (List GoString) :=
  { urlParsePath := fun u => some u
    STANDARD := 1
    MatchTitle := fun _ => []
    NewHashes := fun raw => { BodyMd5 := raw, BodySimhash := raw }
    Md5Hash := fun b => b
    SimhashCompare := fun x y => (x.length - y.length) + (y.length - x.length)
    Extract := fun _ => []
    FingerDetect := fun _ => []
    ToString := fun _ => []
    nilF := []
    nilX := [] }

/-- A response with the given body, header, declared length and `Location`. -/
def mkResponse (body header : Bytes) (contentLength : Int) (location : GoString) : Response :=
  { StatusCode := 200
    Body := body
    ContentLength := contentLength
    Header := header
    GetHeader := fun name => if name = lit "Location" then location else []
    ClientType := 0 }

/-- A response of the standard client: its header block has no blank line,
the body is one byte, no `Location`. -/
def respPlain : Response := mkResponse (lit "B") (lit "Server: x\r\n") 1 []

/-- The Baseline of `respPlain` for the URL `/p`, constructed and collected. -/
def blPlain : Baseline (List GoString) (List GoString) :=
  Collect specLib (NewBaseline specLib (lit "/p") [] respPlain)

/-- A Baseline that redirects to `/login` with body `X`; `Collect` has not
run. -/
def blLoginX : Baseline (List GoString) (List GoString) :=
  { zeroBaseline specLib with RedirectURL := lit "/login", Body := lit "X", BodyLength := 1 }

/-- A Baseline that redirects to `/login` with body `Y` and path `/foo123`. -/
def blLoginY : Baseline (List GoString) (List GoString) :=
  { zeroBaseline specLib with
    RedirectURL := lit "/login", Body := lit "Y", BodyLength := 900, Path := lit "/foo123" }

/-- A collected Baseline of declared length 500. -/
def bl500 : Baseline (List GoString) (List GoString) :=
  Collect specLib (NewBaseline specLib (lit "/a") [] (mkResponse (lit "page") [] 500 []))

/-- A Baseline of declared length 505 whose body equals the raw bytes of
`bl500`. -/
def bl505 : Baseline (List GoString) (List GoString) :=
  NewBaseline specLib (lit "/b") [] (mkResponse (lit "page") (lit "H") 505 [])

/-- A Baseline of declared length 516 whose body echoes its path `/foo123`. -/
def bl516 : Baseline (List GoString) (List GoString) :=
  NewBaseline specLib (lit "/foo123") [] (mkResponse (lit "not found: /foo123") [] 516 [])

/-- Two collected Baselines with the same `Location` and bodies `X`, `Y`. -/
def blRedirX : Baseline (List GoString) (List GoString) :=
  Collect specLib (NewBaseline specLib (lit "/a") [] (mkResponse (lit "X") [] 1 (lit "/login")))

/-- The second of the two: body `Y`. -/
def blRedirY : Baseline (List GoString) (List GoString) :=
  Collect specLib (NewBaseline specLib (lit "/b") [] (mkResponse (lit "Y") [] 1 (lit "/login")))

/-- A collected Baseline with body `X` and declared length 1. -/
def blShort : Baseline (List GoString) (List GoString) :=
  Collect specLib (NewBaseline specLib (lit "/p") [] (mkResponse (lit "X") [] 1 []))

/-- A collected Baseline with the same body `X` and declared length 100. -/
def blLong : Baseline (List GoString) (List GoString) :=
  Collect specLib (NewBaseline specLib (lit "/p") [] (mkResponse (lit "X") [] 100 []))

/-- The invalid Baseline of `respPlain` for the URL `/p`. -/
def blInvalid : Baseline (List GoString) (List GoString) :=
  NewInvalidBaseline specLib (lit "/p") [] respPlain (lit "timeout")

/-- The keys that the spec enumerates for `Get`. -/
def enumeratedKeys : List GoString :=
  [lit "url", lit "host", lit "title", lit "redirect", lit "md5", lit "simhash",
   lit "status", lit "stat", lit "spend", lit "framework", lit "frame"]

/-- The keys that `Get` has a case for. -/
def caseKeys : List GoString := enumeratedKeys ++ [lit "mmh3"]

/-- The method `Additional`. -/
def Additional (L : Lib F X) (bl : Baseline F X) (key : GoString) : GoString :=
  if Get L bl key ≠ [] then lit " [" ++ Get L bl key ++ lit "] " else lit " "

/-- The method `Format`; the `strings.Builder` is the line written so far. -/
def Format (L : Lib F X) (bl : Baseline F X) (probes : List GoString) : GoString :=
  let line : GoString := bl.Url
  let line := if bl.Host ≠ [] then line ++ (lit " (" ++ bl.Host ++ lit ")") else line
  let line := if bl.Reason ≠ [] then (line ++ lit " ,") ++ bl.Reason else line
  if bl.Err ≠ [] then
    (line ++ lit " ,err: ") ++ bl.Err
  else
    probes.foldl (fun line p => (line ++ lit " ") ++ Additional L bl p) line

/-- The method `String`. -/
def Baseline.String (L : Lib F X) (bl : Baseline F X) : GoString :=
  let line : GoString := bl.Url
  let line := if bl.Host ≠ [] then line ++ (lit " (" ++ bl.Host ++ lit ")") else line
  if bl.Err ≠ [] then
    (line ++ lit "err: ") ++ bl.Err
  else
    let line := line ++ lit " - "
    let line := line ++ Itoa bl.Status
    let line := line ++ lit " - "
    let line := line ++ Itoa bl.BodyLength
    let line :=
      if bl.RedirectURL ≠ [] then ((line ++ lit " -> ") ++ bl.RedirectURL) ++ lit " " else line
    let line := line ++ Additional L bl (lit "title")
    line ++ L.ToString bl.Frameworks

/-- A value of a member of the JSON object of a Baseline, before it is
rendered as text. -/
inductive JsonValue (F X : Type) where
  | str (s : GoString)
  | int (n : Int)
  | bool (b : Bool)
  | frameworks (f : F)
  | extracteds (x : X)

/-- What `Jsonify` takes from outside `baseline.go`: the members that the
fields of a non-nil embedded `*parsers.Hashes` contribute under the tags of
that struct, and the JSON text of a value of type `Frameworks` and of type
`Extracteds` (`none` when encoding it returns an error). -/
structure JsonLib (F X : Type) where
  hashMembers : Hashes → List (GoString × JsonValue F X)
  encodeFrameworks : F → Option Bytes
  encodeExtracteds : X → Option Bytes

/-- The members that the fields of `Baseline` declare by their struct tags,
in field order; `Body`, `Header` and `Raw` carry the tag `json:"-"` and
declare none. -/
def ownMembers (bl : Baseline F X) : List (GoString × JsonValue F X) :=
  [ (lit "url", .str bl.Url),
    (lit "path", .str bl.Path),
    (lit "host", .str bl.Host),
    (lit "body_length", .int bl.BodyLength),
    (lit "header_length", .int bl.HeaderLength),
    (lit "redirect_url", .str bl.RedirectURL),
    (lit "status", .int bl.Status),
    (lit "is_dynamic_url", .bool bl.IsDynamicUrl),
    (lit "spended", .int bl.Spended),
    (lit "title", .str bl.Title),
    (lit "frameworks", .frameworks bl.Frameworks),
    (lit "extracts", .extracteds bl.Extracteds),
    (lit "error", .str bl.Err),
    (lit "reason", .str bl.Reason),
    (lit "valid", .bool bl.IsValid),
    (lit "fuzzy", .bool bl.IsFuzzy) ]

/-- The members that a non-nil embedded `Hashes` contributes: its promoted
fields, except those whose name a field of the struct itself has, which hides
them. -/
def promotedMembers (J : JsonLib F X) (bl : Baseline F X) : List (GoString × JsonValue F X) :=
  match bl.Hashes with
  | none => []
  | some h =>
    (J.hashMembers h).filter (fun m => !(ownMembers bl).any (fun o => decide (o.1 = m.1)))

/-- The members of the object that `json.Marshal(bl)` renders: the tagged
fields of the struct, then the promoted fields of the embedded `Hashes`. -/
def jsonMembers (J : JsonLib F X) (bl : Baseline F X) : List (GoString × JsonValue F X) :=
  ownMembers bl ++ promotedMembers J bl

/-- The lower-case hexadecimal digit of a number below 16. -/
def hexDigit (n : Nat) : UInt8 := if n < 10 then UInt8.ofNat (48 + n) else UInt8.ofNat (87 + n)

/-- What the string encoder of `encoding/json` writes for one byte below
`0x80`, with HTML escaping as `json.Marshal` runs it: a backslash before the
quote and the backslash, the short forms for backspace, form feed, newline,
carriage return and tab (Go 1.22 and later), `\u00XX` for the other control
characters and for `<`, `>` and `&`, and the byte itself otherwise. -/
def escapeByte (b : UInt8) : Bytes :=
  if b.toNat = 0x22 ∨ b.toNat = 0x5C then [0x5C, b]
  else if b.toNat = 0x08 then [0x5C, 0x62]
  else if b.toNat = 0x0C then [0x5C, 0x66]
  else if b.toNat = 0x0A then [0x5C, 0x6E]
  else if b.toNat = 0x0D then [0x5C, 0x72]
  else if b.toNat = 0x09 then [0x5C, 0x74]
  else if b.toNat < 0x20 ∨ b.toNat = 0x3C ∨ b.toNat = 0x3E ∨ b.toNat = 0x26 then
    [0x5C, 0x75, 0x30, 0x30, hexDigit (b.toNat / 16), hexDigit (b.toNat % 16)]
  else [b]

/-- A continuation byte of UTF-8. -/
def isCont (b : UInt8) : Bool := decide (0x80 ≤ b.toNat ∧ b.toNat ≤ 0xBF)

/-- A valid encoding of two bytes. -/
def isRune2 (b0 b1 : UInt8) : Bool := decide (0xC2 ≤ b0.toNat ∧ b0.toNat ≤ 0xDF) && isCont b1

/-- A valid encoding of three bytes. -/
def isRune3 (b0 b1 b2 : UInt8) : Bool :=
  (decide (b0.toNat = 0xE0 ∧ 0xA0 ≤ b1.toNat ∧ b1.toNat ≤ 0xBF) ||
    (decide ((0xE1 ≤ b0.toNat ∧ b0.toNat ≤ 0xEC) ∨ b0.toNat = 0xEE ∨ b0.toNat = 0xEF) &&
      isCont b1) ||
    decide (b0.toNat = 0xED ∧ 0x80 ≤ b1.toNat ∧ b1.toNat ≤ 0x9F)) && isCont b2

/-- A valid encoding of four bytes. -/
def isRune4 (b0 b1 b2 b3 : UInt8) : Bool :=
  (decide (b0.toNat = 0xF0 ∧ 0x90 ≤ b1.toNat ∧ b1.toNat ≤ 0xBF) ||
    (decide (0xF1 ≤ b0.toNat ∧ b0.toNat ≤ 0xF3) && isCont b1) ||
    decide (b0.toNat = 0xF4 ∧ 0x80 ≤ b1.toNat ∧ b1.toNat ≤ 0x8F)) && isCont b2 && isCont b3

/-- The number of bytes that follow the lead byte `b0` in the valid UTF-8
encoding at the head of `b0 :: rest`, or `0` when there is none
(`utf8.DecodeRuneInString` returns `RuneError` with size 1). -/
def runeTail (b0 : UInt8) (rest : Bytes) : Nat :=
  match rest with
  | [] => 0
  | b1 :: rest1 =>
    if isRune2 b0 b1 then 1
    else
      match rest1 with
      | [] => 0
      | b2 :: rest2 =>
        if isRune3 b0 b1 b2 then 2
        else
          match rest2 with
          | [] => 0
          | b3 :: _ => if isRune4 b0 b1 b2 b3 then 3 else 0

/-- Whether `b0 :: rest` starts with U+2028 or U+2029. -/
def isLineSep (b0 : UInt8) (rest : Bytes) : Bool :=
  match rest with
  | b1 :: b2 :: _ => decide (b0 = 0xE2 ∧ b1 = 0x80 ∧ (b2 = 0xA8 ∨ b2 = 0xA9))
  | _ => false

/-- The last hexadecimal digit of the line separator at the head: the low
four bits of its third byte. -/
def lineSepLast (rest : Bytes) : Nat :=
  match rest with
  | _ :: b2 :: _ => b2.toNat % 16
  | _ => 0

/-- The loop of the string encoder of `encoding/json`; `skip` counts the
bytes of the current rune that the step at its lead byte has already
written. -/
def escapeFrom : Nat → GoString → Bytes
  | _, [] => []
  | skip + 1, _ :: rest => escapeFrom skip rest
  | 0, b0 :: rest =>
    if b0.toNat < 0x80 then escapeByte b0 ++ escapeFrom 0 rest
    else if runeTail b0 rest = 0 then lit "\\ufffd" ++ escapeFrom 0 rest
    else if isLineSep b0 rest then
      (lit "\\u202" ++ [hexDigit (lineSepLast rest)]) ++ escapeFrom 2 rest
    else (b0 :: rest.take (runeTail b0 rest)) ++ escapeFrom (runeTail b0 rest) rest

/-- The JSON text of a Go string: quoted, escaped, and with every byte that
is not part of a valid UTF-8 encoding replaced by U+FFFD. -/
def quote (s : GoString) : Bytes := (0x22 : UInt8) :: (escapeFrom 0 s ++ [0x22])

/-- The function `utf8.ValidString`; `skip` as in `escapeFrom`. -/
def validFrom : Nat → GoString → Bool
  | _, [] => true
  | skip + 1, _ :: rest => validFrom skip rest
  | 0, b0 :: rest =>
    if b0.toNat < 0x80 then validFrom 0 rest
    else if runeTail b0 rest = 0 then false
    else validFrom (runeTail b0 rest) rest

/-- Whether a Go string is valid UTF-8. -/
def validUTF8 (s : GoString) : Bool := validFrom 0 s

/-- The value of a hexadecimal digit. -/
def hexVal (c : UInt8) : Option Nat :=
  if 0x30 ≤ c.toNat ∧ c.toNat ≤ 0x39 then some (c.toNat - 0x30)
  else if 0x61 ≤ c.toNat ∧ c.toNat ≤ 0x66 then some (c.toNat - 0x61 + 10)
  else none

/-- The UTF-8 encoding of a code point below `0x10000`. -/
def utf8Of (n : Nat) : Bytes :=
  if n < 0x80 then [UInt8.ofNat n]
  else if n < 0x800 then [UInt8.ofNat (0xC0 + n / 64), UInt8.ofNat (0x80 + n % 64)]
  else [UInt8.ofNat (0xE0 + n / 4096), UInt8.ofNat (0x80 + n / 64 % 64),
    UInt8.ofNat (0x80 + n % 64)]

/-- The byte that a two-character escape stands for. -/
def simpleEscape (c : UInt8) : Option UInt8 :=
  if c.toNat = 0x22 then some 0x22
  else if c.toNat = 0x5C then some 0x5C
  else if c.toNat = 0x2F then some 0x2F
  else if c.toNat = 0x62 then some 0x08
  else if c.toNat = 0x66 then some 0x0C
  else if c.toNat = 0x6E then some 0x0A
  else if c.toNat = 0x72 then some 0x0D
  else if c.toNat = 0x74 then some 0x09
  else none

/-- A reader of the characters of a JSON string: the bytes they stand for. -/
def unescape : Bytes → Option GoString
  | [] => some []
  | b :: rest =>
    if b.toNat = 0x5C then
      match rest with
      | [] => none
      | c :: rest1 =>
        if c.toNat = 0x75 then
          match rest1 with
          | h1 :: h2 :: h3 :: h4 :: rest5 =>
            match hexVal h1, hexVal h2, hexVal h3, hexVal h4, unescape rest5 with
            | some x1, some x2, some x3, some x4, some t =>
              some (utf8Of (((x1 * 16 + x2) * 16 + x3) * 16 + x4) ++ t)
            | _, _, _, _, _ => none
          | _ => none
        else
          match simpleEscape c, unescape rest1 with
          | some v, some t => some (v :: t)
          | _, _ => none
    else
      match unescape rest with
      | some t => some (b :: t)
      | none => none


/-- The JSON text of the value of a member: a string quoted, an integer in
decimal, a boolean as `true` or `false`. -/
def renderValue (J : JsonLib F X) : JsonValue F X → Option Bytes
  | .str s => some (quote s)
  | .int n => some (Itoa n)
  | .bool b => some (if b then lit "true" else lit "false")
  | .frameworks f => J.encodeFrameworks f
  | .extracteds x => J.encodeExtracteds x

/-- The JSON text of each member, `"name":value`, or `none` when the encoding
of a value returns an error. -/
def renderMembers (J : JsonLib F X) : List (GoString × JsonValue F X) → Option (List Bytes)
  | [] => some []
  | m :: ms =>
    match renderValue J m.2, renderMembers J ms with
    | some t, some ts => some ((quote m.1 ++ lit ":" ++ t) :: ts)
    | _, _ => none

/-- The texts joined by commas. -/
def joinComma : List Bytes → Bytes
  | [] => []
  | [t] => t
  | t :: u :: ts => t ++ lit "," ++ joinComma (u :: ts)

/-- The function `json.Marshal` on a `*Baseline`: the object of its members,
or `none` when the encoding of a value returns an error. -/
def jsonMarshal (J : JsonLib F X) (bl : Baseline F X) : Option Bytes :=
  match renderMembers J (jsonMembers J bl) with
  | some ts => some (lit "\x7b" ++ joinComma ts ++ lit "\x7d")
  | none => none

/-- The method `Jsonify`. -/
def Jsonify (J : JsonLib F X) (bl : Baseline F X) : GoString :=
  match jsonMarshal J bl with
  | some bs => bs
  | none => []

/-- The number that a string of decimal digits stands for, read after `acc`. -/
def digitsValue (acc : Nat) (ds : GoString) : Nat :=
  ds.foldl (fun a c => a * 10 + (c.toNat - 48)) acc

/-- A collected Baseline with an error recorded. -/
def blErr : Baseline (List GoString) (List GoString) :=
  { blPlain with Err := lit "timeout", Host := lit "example.com", Reason := lit "bad" }

/-- A constructed Baseline whose body is empty. -/
def blEmpty : Baseline (List GoString) (List GoString) :=
  NewBaseline specLib (lit "/p") [] (mkResponse [] (lit "H") 0 [])

/-- A collected base that redirects to `/login`, declared length 1. -/
def blBaseLogin : Baseline (List GoString) (List GoString) :=
  Collect specLib (NewBaseline specLib (lit "/a") [] (mkResponse (lit "X") [] 1 (lit "/login")))

/-- A candidate that redirects to `/login` too, with declared length 900 and
an empty path. -/
def blNoPath : Baseline (List GoString) (List GoString) :=
  { zeroBaseline specLib with RedirectURL := lit "/login", Body := lit "Y", BodyLength := 900 }

/-- A candidate with declared length 900, an empty path and no redirect. -/
def blNoPathFar : Baseline (List GoString) (List GoString) :=
  { zeroBaseline specLib with Body := lit "Y", BodyLength := 900 }

/-- The Baseline `bl500` with another body, path, status, title and validity. -/
def bl500Other : Baseline (List GoString) (List GoString) :=
  { bl500 with
    Body := lit "other", Path := lit "/zzz", Status := 404, Title := lit "t", IsValid := false }

/-- The Baseline `bl505`, collected and with another status and title. -/
def bl505Other : Baseline (List GoString) (List GoString) :=
  { Collect specLib bl505 with Status := 500, Title := lit "u", IsValid := false }

/-- A stand-in for `JsonLib`: the bundle contributes the members `body-md5`
and `body-simhash`, and a list of strings is rendered as `null` when it is
empty and as an array of strings otherwise. -/
def specJson : JsonLib (List GoString) (List GoString) :=
  { hashMembers := fun h => [(lit "body-md5", .str h.BodyMd5), (lit "body-simhash", .str h.BodySimhash)]
    encodeFrameworks := fun fs =>
      if fs = [] then some (lit "null") else some (lit "[" ++ joinComma (fs.map quote) ++ lit "]")
    encodeExtracteds := fun xs =>
      if xs = [] then some (lit "null") else some (lit "[" ++ joinComma (xs.map quote) ++ lit "]") }

/-- A Baseline whose URL is the single byte `0xff`, which is not valid
UTF-8. -/
def blBadA : Baseline (List GoString) (List GoString) :=
  { zeroBaseline specLib with Url := [0xff] }

/-- A Baseline whose URL is the single byte `0xfe`, and nothing else
different. -/
def blBadB : Baseline (List GoString) (List GoString) :=
  { zeroBaseline specLib with Url := [0xfe] }

/-- The names of the members that the struct tags of `Baseline` declare. -/
def ownKeys : List GoString :=
  [lit "url", lit "path", lit "host", lit "body_length", lit "header_length",
   lit "redirect_url", lit "status", lit "is_dynamic_url", lit "spended", lit "title",
   lit "frameworks", lit "extracts", lit "error", lit "reason", lit "valid", lit "fuzzy"]

/-- The stand-in `specLib` with a URL parser that rejects what does not start
with a slash. -/
def strictLib : Lib (List GoString) (List GoString) :=
  { specLib with urlParsePath := fun u => if startsWith u (lit "/") then some u else none }

/-- The response `respPlain` as one of the standard client. -/
def respStd : Response := { respPlain with ClientType := 1 }

/-! ## Helper lemmas -/

theorem wrap64_of_fits (x : Int) (h1 : -2 ^ 63 ≤ x) (h2 : x < 2 ^ 63) : wrap64 x = x := by
  unfold wrap64
  omega

theorem intSub_of_fits (a b : Int) (h1 : -2 ^ 63 ≤ a - b) (h2 : a - b < 2 ^ 63) :
    intSub a b = a - b :=
  wrap64_of_fits (a - b) h1 h2

theorem intSub_self (a : Int) : intSub a a = 0 := by
  unfold intSub
  rw [sub_self]
  decide

theorem lengthNear_self (a : Int) : lengthNear a a = true := by
  unfold lengthNear
  rw [intSub_self]
  decide

theorem startsWith_iff (s p : GoString) : startsWith s p = true ↔ p <+: s := by
  induction s generalizing p with
  | nil =>
    cases p with
    | nil => simp [startsWith]
    | cons d p => simp [startsWith]
  | cons c s ih =>
    cases p with
    | nil => simp [startsWith]
    | cons d p =>
      simp [startsWith, ih, List.cons_prefix_cons]
      intro _
      exact eq_comm

theorem stringsContains_iff (s substr : GoString) :
    stringsContains s substr = true ↔ substr <:+: s := by
  induction s with
  | nil =>
    simp [stringsContains, startsWith_iff]
  | cons c s ih =>
    simp only [stringsContains, Bool.or_eq_true, startsWith_iff, ih]
    exact (List.infix_cons_iff).symm

/-! ## Compare -/

/-- The verdict of Compare on a constructed and collected Baseline against
an identical copy of itself, for every library: Identical (1) when the
redirect URL is not empty or when the stored content hash,
`NewHashes(Raw).BodyMd5`, equals `Md5Hash(Body)`; Ambiguous (0) otherwise. -/
theorem Compare_self (L : Lib F X) (u host : GoString) (resp : Response) :
    Compare L (Collect L (NewBaseline L u host resp)) (Collect L (NewBaseline L u host resp)) =
      some (if resp.GetHeader (lit "Location") ≠ [] ∨
              (L.NewHashes (resp.Header ++ resp.Body)).BodyMd5 = L.Md5Hash resp.Body
            then 1 else 0) := by
  by_cases hloc : resp.GetHeader (lit "Location") = []
  · by_cases hmd : (L.NewHashes (resp.Header ++ resp.Body)).BodyMd5 = L.Md5Hash resp.Body
    · simp [Compare, Collect, NewBaseline, lengthNear_self, hloc, hmd]
    · simp [Compare, Collect, NewBaseline, lengthNear_self, hloc, hmd]
  · simp [Compare, Collect, NewBaseline, hloc]

/-- C1 (the code at the failing input): when the response has no `Location`
and the content hash that Collect stores, `NewHashes(Raw).BodyMd5` with
`Raw = Header ++ Body`, is not `Md5Hash(Body)`, a constructed and collected
Baseline compared with an identical copy of itself gives Ambiguous (0), not
Identical (1). -/
theorem Compare_self_ambiguous (L : Lib F X) (u host : GoString) (resp : Response)
    (hloc : resp.GetHeader (lit "Location") = [])
    (hhash : (L.NewHashes (resp.Header ++ resp.Body)).BodyMd5 ≠ L.Md5Hash resp.Body) :
    Compare L (Collect L (NewBaseline L u host resp)) (Collect L (NewBaseline L u host resp)) =
      some 0 := by
  rw [Compare_self]
  simp [hloc, hhash]

/-- C1 (witness): the Baseline of a response with a one-byte body, a header
block and no redirect, with the hash bundle computed from the raw bytes. -/
theorem Compare_self_ambiguous_witness :
    respPlain.GetHeader (lit "Location") = [] ∧
      (specLib.NewHashes (respPlain.Header ++ respPlain.Body)).BodyMd5 ≠
        specLib.Md5Hash respPlain.Body ∧
      Compare specLib blPlain blPlain = some 0 :=
  ⟨by decide, by decide,
    Compare_self_ambiguous specLib (lit "/p") [] respPlain (by decide) (by decide)⟩

/-- C2: when the candidate redirect URL is not empty and equals the base
redirect URL, Compare gives Identical (1), whatever the other fields are and
whether or not the base has a hash bundle. -/
theorem Compare_same_redirect (L : Lib F X) (base cand : Baseline F X)
    (hne : cand.RedirectURL ≠ []) (heq : base.RedirectURL = cand.RedirectURL) :
    Compare L base cand = some 1 := by
  simp [Compare, hne, heq]

/-- C2 (witness): the base redirects to `/login` with body `X` and no hash
bundle, the candidate to `/login` with body `Y`, another length and path. -/
theorem Compare_same_redirect_witness :
    blLoginX.Hashes = none ∧ blLoginX.Body ≠ blLoginY.Body ∧
      Compare specLib blLoginX blLoginY = some 1 :=
  ⟨rfl, by decide, Compare_same_redirect specLib blLoginX blLoginY (by decide) (by decide)⟩

/-- C3: with a hash bundle on the base and the redirect rule not applying, a
difference of the body lengths below 16 makes Compare give Identical (1) when
`Md5Hash` of the candidate body equals the stored content hash and Ambiguous
(0) otherwise, never Different (-1); at a difference of exactly 16 the
verdict is that of the path test instead. -/
theorem Compare_near (L : Lib F X) (base cand : Baseline F X) (h : Hashes)
    (hh : base.Hashes = some h)
    (hred : ¬ (cand.RedirectURL ≠ [] ∧ base.RedirectURL = cand.RedirectURL)) :
    ((intSub base.BodyLength cand.BodyLength).natAbs < 16 →
        Compare L base cand = some (if L.Md5Hash cand.Body = h.BodyMd5 then 1 else 0) ∧
        Compare L base cand ≠ some (-1)) ∧
    ((intSub base.BodyLength cand.BodyLength).natAbs = 16 →
        Compare L base cand = some (if cand.Path <:+: cand.Body then 0 else -1)) := by
  constructor
  · intro hlt
    have hnear : lengthNear base.BodyLength cand.BodyLength = true := by
      simp [lengthNear, hlt]
    have hc : Compare L base cand = some (if L.Md5Hash cand.Body = h.BodyMd5 then 1 else 0) := by
      by_cases hmd : h.BodyMd5 = L.Md5Hash cand.Body
      · simp [Compare, hred, hnear, hh, hmd]
      · have hmd2 : ¬ L.Md5Hash cand.Body = h.BodyMd5 := fun e => hmd e.symm
        simp [Compare, hred, hnear, hh, hmd, hmd2]
    refine ⟨hc, ?_⟩
    rw [hc]
    split <;> decide
  · intro h16
    have hfar : lengthNear base.BodyLength cand.BodyLength = false := by
      simp [lengthNear, h16]
    by_cases hc : cand.Path <:+: cand.Body
    · have hs : stringsContains cand.Body cand.Path = true := (stringsContains_iff _ _).mpr hc
      simp [Compare, hred, hfar, hs, hc]
    · have hs : stringsContains cand.Body cand.Path = false := by
        rw [← Bool.not_eq_true]
        exact fun e => hc ((stringsContains_iff _ _).mp e)
      simp [Compare, hred, hfar, hs, hc]

/-- C3 (witness): a base of declared length 500 and a candidate of declared
length 505 whose body hashes to the stored content hash: Identical. -/
theorem Compare_near_witness :
    bl500.Hashes = some (specLib.NewHashes bl500.Raw) ∧
      ¬ (bl505.RedirectURL ≠ [] ∧ bl500.RedirectURL = bl505.RedirectURL) ∧
      (intSub bl500.BodyLength bl505.BodyLength).natAbs < 16 ∧
      Compare specLib bl500 bl505 = some 1 :=
  ⟨rfl, by decide, by decide,
    ((Compare_near specLib bl500 bl505 (specLib.NewHashes bl500.Raw) rfl (by decide)).1
      (by decide)).1⟩

/-- C4 (as amended): for constructed and collected Baselines `a`, `b` to
which the redirect rule does not apply and whose declared body lengths (the
content lengths of the transport) differ by less than 16, Compare gives
Identical (1) when the stored content hash of `a`, `NewHashes(a.Raw).BodyMd5`,
equals `Md5Hash(b.Body)`, and Ambiguous (0) otherwise. -/
theorem Compare_collected_near (L : Lib F X) (u1 host1 u2 host2 : GoString)
    (r1 r2 : Response)
    (hred : ¬ (r2.GetHeader (lit "Location") ≠ [] ∧
      r1.GetHeader (lit "Location") = r2.GetHeader (lit "Location")))
    (hlt : (intSub r1.ContentLength r2.ContentLength).natAbs < 16) :
    Compare L (Collect L (NewBaseline L u1 host1 r1)) (Collect L (NewBaseline L u2 host2 r2)) =
      some (if (L.NewHashes (r1.Header ++ r1.Body)).BodyMd5 = L.Md5Hash r2.Body
            then 1 else 0) := by
  have hnear : lengthNear r1.ContentLength r2.ContentLength = true := by
    simp [lengthNear, hlt]
  by_cases hmd : (L.NewHashes (r1.Header ++ r1.Body)).BodyMd5 = L.Md5Hash r2.Body
  · simp [Compare, Collect, NewBaseline, hred, hnear, hmd]
  · simp [Compare, Collect, NewBaseline, hred, hnear, hmd]

/-- C4 (witness): the collected base of declared length 500 against the
candidate of declared length 505, collected. -/
theorem Compare_collected_near_witness :
    (intSub (500 : Int) 505).natAbs < 16 ∧
      Compare specLib
        (Collect specLib (NewBaseline specLib (lit "/a") [] (mkResponse (lit "page") [] 500 [])))
        (Collect specLib
          (NewBaseline specLib (lit "/b") [] (mkResponse (lit "page") (lit "H") 505 []))) =
        some 1 :=
  ⟨by decide,
    Compare_collected_near specLib (lit "/a") [] (lit "/b") []
      (mkResponse (lit "page") [] 500 []) (mkResponse (lit "page") (lit "H") 505 [])
      (by decide) (by decide)⟩

/-- C4 (counterexample): two collected Baselines with bodies of equal byte
length and different hashes but the same `Location` compare Identical (1),
not Ambiguous; two collected Baselines with the same body, hence hash-equal
and of equal byte length, but declared lengths 1 and 100 compare Different
(-1), not Identical. -/
theorem Compare_collected_near_counterexample :
    ((((blRedirX.Body.length : Int) - blRedirY.Body.length).natAbs < 16 ∧
        specLib.Md5Hash blRedirX.Body ≠ specLib.Md5Hash blRedirY.Body) ∧
      Compare specLib blRedirX blRedirY = some 1) ∧
    ((((blShort.Body.length : Int) - blLong.Body.length).natAbs < 16 ∧
        specLib.Md5Hash blShort.Body = specLib.Md5Hash blLong.Body) ∧
      Compare specLib blShort blLong = some (-1)) := by
  decide

/-- C5: when the redirect rule does not apply and the body lengths differ by
16 or more (the difference being the int subtraction of the code), Compare
gives Ambiguous (0) if the candidate body contains the candidate path as a
substring and Different (-1) otherwise; it never gives Identical (1), and the
verdict is the same whatever the hash bundle of the base is, absent
included. -/
theorem Compare_far (L : Lib F X) (base cand : Baseline F X)
    (hred : ¬ (cand.RedirectURL ≠ [] ∧ base.RedirectURL = cand.RedirectURL))
    (hfar : 16 ≤ (intSub base.BodyLength cand.BodyLength).natAbs) :
    (cand.Path <:+: cand.Body → Compare L base cand = some 0) ∧
    (¬ cand.Path <:+: cand.Body → Compare L base cand = some (-1)) ∧
    Compare L base cand ≠ some 1 ∧
    ∀ hs : Option Hashes, Compare L { base with Hashes := hs } cand = Compare L base cand := by
  have hnot : lengthNear base.BodyLength cand.BodyLength = false := by
    simp only [lengthNear, decide_eq_false_iff_not, not_lt]
    exact hfar
  have hyes : cand.Path <:+: cand.Body → Compare L base cand = some 0 := by
    intro hc
    have hs : stringsContains cand.Body cand.Path = true := (stringsContains_iff _ _).mpr hc
    simp [Compare, hred, hnot, hs]
  have hno : ¬ cand.Path <:+: cand.Body → Compare L base cand = some (-1) := by
    intro hc
    have hs : stringsContains cand.Body cand.Path = false := by
      rw [← Bool.not_eq_true]
      exact fun e => hc ((stringsContains_iff _ _).mp e)
    simp [Compare, hred, hnot, hs]
  refine ⟨hyes, hno, ?_, ?_⟩
  · by_cases hc : cand.Path <:+: cand.Body
    · rw [hyes hc]
      decide
    · rw [hno hc]
      decide
  · intro hs
    simp [Compare, hred, hnot]

/-- C5 (witness): a base of declared length 500 against a candidate of
declared length 516 whose body echoes its path `/foo123`: Ambiguous. -/
theorem Compare_far_witness :
    16 ≤ (intSub bl500.BodyLength bl516.BodyLength).natAbs ∧
      bl516.Path <:+: bl516.Body ∧ Compare specLib bl500 bl516 = some 0 :=
  ⟨by decide, by decide,
    (Compare_far specLib bl500 bl516 (by decide) (by decide)).1 (by decide)⟩

/-! ## FuzzyCompare -/

/-- C6: with hash bundles on both Baselines, FuzzyCompare is true exactly
when the distance of the two signatures is strictly below the threshold
`Distance`, for every threshold. The code passes the signature of the
argument first and that of the receiver second; for a symmetric distance
that is the distance of the receiver signature to the argument signature. -/
theorem FuzzyCompare_iff (L : Lib F X) (Distance : Nat) (a b : Baseline F X)
    (sa sb : Hashes) (ha : a.Hashes = some sa) (hb : b.Hashes = some sb) :
    FuzzyCompare L Distance a b =
        some (decide (L.SimhashCompare sb.BodySimhash sa.BodySimhash < Distance)) ∧
      ((∀ x y, L.SimhashCompare x y = L.SimhashCompare y x) →
        (FuzzyCompare L Distance a b = some true ↔
          L.SimhashCompare sa.BodySimhash sb.BodySimhash < Distance)) := by
  have hcode : FuzzyCompare L Distance a b =
      some (decide (L.SimhashCompare sb.BodySimhash sa.BodySimhash < Distance)) := by
    by_cases hlt : L.SimhashCompare sb.BodySimhash sa.BodySimhash < Distance
    · simp [FuzzyCompare, ha, hb, hlt]
    · simp [FuzzyCompare, ha, hb, hlt]
  refine ⟨hcode, ?_⟩
  intro hsymm
  rw [hcode, hsymm sa.BodySimhash sb.BodySimhash]
  simp

/-- C6 (witness): two collected Baselines at distance 8 under the threshold
10. -/
theorem FuzzyCompare_iff_witness :
    blPlain.Hashes = some (specLib.NewHashes blPlain.Raw) ∧
      bl500.Hashes = some (specLib.NewHashes bl500.Raw) ∧
      FuzzyCompare specLib 10 blPlain bl500 = some true :=
  ⟨rfl, rfl,
    (FuzzyCompare_iff specLib 10 blPlain bl500 (specLib.NewHashes blPlain.Raw)
      (specLib.NewHashes bl500.Raw) rfl rfl).1⟩

/-- C7 (the code at the failing input): a Baseline on which `Collect` has not
run has no hash bundle, and FuzzyCompare with it on either side does not
return false: it reads `BodySimhash` through the nil pointer and panics. -/
theorem FuzzyCompare_uncollected (L : Lib F X) (Distance : Nat) (u host : GoString)
    (resp : Response) (other : Baseline F X) :
    FuzzyCompare L Distance (NewBaseline L u host resp) other = none ∧
      FuzzyCompare L Distance other (NewBaseline L u host resp) = none := by
  constructor
  · cases ho : other.Hashes <;> simp [FuzzyCompare, NewBaseline, zeroBaseline, ho]
  · cases ho : other.Hashes <;> simp [FuzzyCompare, NewBaseline, zeroBaseline, ho]

/-! ## Construction and Collect -/

/-- C8 (as amended): a Baseline returned by NewBaseline has
`Raw == Header ++ Body` and `len(Raw) == HeaderLength + len(Body)`; a Baseline
returned by NewInvalidBaseline has empty `Header` and `Raw` and
`HeaderLength == 0`, whatever its body is. -/
theorem constructors_raw (L : Lib F X) (u host reason : GoString) (resp : Response) :
    ((NewBaseline L u host resp).Raw =
        (NewBaseline L u host resp).Header ++ (NewBaseline L u host resp).Body ∧
      ((NewBaseline L u host resp).Raw.length : Int) =
        (NewBaseline L u host resp).HeaderLength + (NewBaseline L u host resp).Body.length) ∧
    ((NewInvalidBaseline L u host resp reason).Header = [] ∧
      (NewInvalidBaseline L u host resp reason).Raw = [] ∧
      (NewInvalidBaseline L u host resp reason).HeaderLength = 0 ∧
      (NewInvalidBaseline L u host resp reason).Body = resp.Body) := by
  simp [NewBaseline, NewInvalidBaseline, zeroBaseline]

/-- C8 (counterexample): the invalid Baseline of a response with a one-byte
body has an empty `Raw`, which is not `Header ++ Body`, and
`len(Raw) = 0` is not `HeaderLength + len(Body) = 1`. -/
theorem constructors_raw_counterexample :
    blInvalid.Raw ≠ blInvalid.Header ++ blInvalid.Body ∧
      (blInvalid.Raw.length : Int) ≠ blInvalid.HeaderLength + blInvalid.Body.length := by
  decide

/-- C9: Collect is idempotent: the Baseline after two calls equals the
Baseline after one, in every field (title, hash bundle, extractions and
frameworks among them). -/
theorem Collect_idempotent (L : Lib F X) (bl : Baseline F X) :
    Collect L (Collect L bl) = Collect L bl := by
  by_cases h : 0 < bl.Body.length
  · simp [Collect, h]
  · simp [Collect, h]

/-! ## Get -/

/-- C10 (as amended): for every key outside the set url, host, title,
redirect, md5, simhash, mmh3, status, stat, spend, framework, frame, Get gives
the empty string. -/
theorem Get_unknown (L : Lib F X) (bl : Baseline F X) (key : GoString)
    (hkey : key ∉ caseKeys) : Get L bl key = [] := by
  simp only [caseKeys, enumeratedKeys, List.cons_append, List.nil_append, List.mem_cons,
    List.mem_singleton, List.not_mem_nil, or_false, not_or] at hkey
  obtain ⟨h1, h2, h3, h4, h5, h6, h7, h8, h9, h10, h11, h12⟩ := hkey
  simp [Get, h1, h2, h3, h4, h5, h6, h7, h8, h9, h10, h11, h12]

/-- C10 (witness): the key `unknown-key`. -/
theorem Get_unknown_witness :
    lit "unknown-key" ∉ caseKeys ∧ Get specLib blPlain (lit "unknown-key") = [] :=
  ⟨by decide, Get_unknown specLib blPlain (lit "unknown-key") (by decide)⟩

/-- C10 (counterexample): the key `mmh3` is outside the enumerated set, and
on a collected Baseline Get gives the signature rendering for it, which is
not empty. -/
theorem Get_unknown_counterexample :
    lit "mmh3" ∉ enumeratedKeys ∧ Get specLib blPlain (lit "mmh3") ≠ [] := by
  decide

/-- C11: for every Baseline, valid or not, with or without a hash bundle,
`Get("status")` and `Get("stat")` are both the decimal rendering of
`Status`, which is `0` for zero and carries a minus sign for a negative
value. -/
theorem Get_status (L : Lib F X) (bl : Baseline F X) :
    Get L bl (lit "status") = Itoa bl.Status ∧ Get L bl (lit "stat") = Itoa bl.Status ∧
      Itoa 0 = lit "0" ∧ Itoa 200 = lit "200" ∧ Itoa (-1) = lit "-1" := by
  refine ⟨rfl, rfl, ?_, ?_, ?_⟩ <;> decide

/-! ## The invalid constructor -/

/-- C12: NewInvalidBaseline gives a Baseline with `IsValid = false` and the
given reason, whose `Url`, `Path`, `Host`, `Status`, `Body`, `BodyLength` and
`RedirectURL` are those of NewBaseline on the same arguments and whose
`Header`, `HeaderLength` and `Raw` are zero; `Host` is the given host when the
client type is `STANDARD` and empty otherwise, and `Path` is empty when the
URL does not parse. -/
theorem NewInvalidBaseline_fields (L : Lib F X) (u host reason : GoString) (resp : Response) :
    ((NewInvalidBaseline L u host resp reason).IsValid = false ∧
      (NewInvalidBaseline L u host resp reason).Reason = reason) ∧
    ((NewInvalidBaseline L u host resp reason).Url = (NewBaseline L u host resp).Url ∧
      (NewInvalidBaseline L u host resp reason).Path = (NewBaseline L u host resp).Path ∧
      (NewInvalidBaseline L u host resp reason).Host = (NewBaseline L u host resp).Host ∧
      (NewInvalidBaseline L u host resp reason).Status = (NewBaseline L u host resp).Status ∧
      (NewInvalidBaseline L u host resp reason).Body = (NewBaseline L u host resp).Body ∧
      (NewInvalidBaseline L u host resp reason).BodyLength =
        (NewBaseline L u host resp).BodyLength ∧
      (NewInvalidBaseline L u host resp reason).RedirectURL =
        (NewBaseline L u host resp).RedirectURL) ∧
    ((NewInvalidBaseline L u host resp reason).Header = [] ∧
      (NewInvalidBaseline L u host resp reason).HeaderLength = 0 ∧
      (NewInvalidBaseline L u host resp reason).Raw = []) ∧
    ((resp.ClientType = L.STANDARD → (NewInvalidBaseline L u host resp reason).Host = host) ∧
      (resp.ClientType ≠ L.STANDARD → (NewInvalidBaseline L u host resp reason).Host = [])) ∧
    (L.urlParsePath u = none → (NewInvalidBaseline L u host resp reason).Path = []) := by
  refine ⟨⟨rfl, rfl⟩, ⟨rfl, rfl, rfl, rfl, rfl, rfl, rfl⟩, ⟨rfl, rfl, rfl⟩, ⟨?_, ?_⟩, ?_⟩
  · intro hc
    simp [NewInvalidBaseline, hostFor, hc]
  · intro hc
    simp [NewInvalidBaseline, hostFor, hc]
  · intro hp
    simp [NewInvalidBaseline, parsedPath, hp]

/-- C12 (witness): the URL `:` does not parse and the client type is
`STANDARD`: the host is the given one and the path is empty. -/
theorem NewInvalidBaseline_fields_witness :
    (NewInvalidBaseline strictLib (lit ":") (lit "example.com") respStd (lit "timeout")).Host =
        lit "example.com" ∧
      (NewInvalidBaseline strictLib (lit ":") (lit "example.com") respStd (lit "timeout")).Path =
        [] :=
  ⟨(NewInvalidBaseline_fields strictLib (lit ":") (lit "example.com") (lit "timeout")
      respStd).2.2.2.1.1 rfl,
    (NewInvalidBaseline_fields strictLib (lit ":") (lit "example.com") (lit "timeout")
      respStd).2.2.2.2 rfl⟩

/-! ## Format and String -/

theorem foldl_write (f : GoString → GoString) (probes : List GoString) (line : GoString) :
    probes.foldl (fun line p => (line ++ lit " ") ++ f p) line =
      line ++ probes.flatMap (fun p => lit " " ++ f p) := by
  induction probes generalizing line with
  | nil => simp
  | cons p ps ih =>
    rw [List.foldl_cons, ih, List.flatMap_cons]
    simp only [List.append_assoc]

/-- C13 (as amended): for a Baseline with an empty error, `Format(probes)` is
the URL, the optional ` (host)` suffix, the optional ` ,reason` suffix, and
then for each probe key in order a space followed by ` [v] ` when
`Get(key) = v` is not empty and by a single space when it is empty. The
decimal status, the body length and the ` -> redirect` suffix are rendered by
`String()`, which is the URL, the optional ` (host)` suffix, ` - status`,
` - length`, the optional redirect suffix, the title field and the
frameworks. -/
theorem Format_no_error (L : Lib F X) (bl : Baseline F X) (probes : List GoString)
    (herr : bl.Err = []) :
    Format L bl probes =
        bl.Url ++ (if bl.Host ≠ [] then lit " (" ++ bl.Host ++ lit ")" else []) ++
          (if bl.Reason ≠ [] then lit " ," ++ bl.Reason else []) ++
          probes.flatMap (fun p =>
            lit " " ++ (if Get L bl p ≠ [] then lit " [" ++ Get L bl p ++ lit "] " else lit " ")) ∧
      bl.String L =
        bl.Url ++ (if bl.Host ≠ [] then lit " (" ++ bl.Host ++ lit ")" else []) ++
          lit " - " ++ Itoa bl.Status ++ lit " - " ++ Itoa bl.BodyLength ++
          (if bl.RedirectURL ≠ [] then lit " -> " ++ bl.RedirectURL ++ lit " " else []) ++
          (if bl.Title ≠ [] then lit " [" ++ bl.Title ++ lit "] " else lit " ") ++
          L.ToString bl.Frameworks := by
  constructor
  · simp only [Format, herr, ne_eq, not_true_eq_false, if_false, foldl_write]
    unfold Additional
    by_cases hh : bl.Host = [] <;> by_cases hr : bl.Reason = [] <;>
      simp [hh, hr, List.append_assoc]
  · have htitle : Get L bl (lit "title") = bl.Title := rfl
    simp only [Baseline.String, herr, ne_eq, not_true_eq_false, if_false, Additional, htitle]
    by_cases hh : bl.Host = [] <;> by_cases hr : bl.RedirectURL = [] <;>
      simp [hh, hr, List.append_assoc]

/-- C13 (witness): a collected Baseline without error, probed for `title`
(empty) and `url`. -/
theorem Format_no_error_witness :
    blPlain.Err = [] ∧ Format specLib blPlain [lit "title", lit "url"] = lit "/p    [/p] " :=
  ⟨rfl, (Format_no_error specLib blPlain [lit "title", lit "url"] rfl).1.trans (by decide)⟩

/-- C13 (counterexample): a collected Baseline with status 200, declared
length 1, redirect `/login` and no error, probed for `title`: the line is the
URL and two spaces, and holds neither the status nor the length nor the
redirect. -/
theorem Format_no_error_counterexample :
    blRedirX.Err = [] ∧ Format specLib blRedirX [lit "title"] = lit "/a  " ∧
      stringsContains (Format specLib blRedirX [lit "title"]) (Itoa blRedirX.Status) = false ∧
      stringsContains (Format specLib blRedirX [lit "title"]) (Itoa blRedirX.BodyLength) = false ∧
      stringsContains (Format specLib blRedirX [lit "title"]) blRedirX.RedirectURL = false := by
  decide

/-- C14: for a Baseline with an error, `Format` does not depend on the probes,
it is the URL, the optional host and reason suffixes, ` ,err: ` and the error
text, and so it ends with the error text: nothing is rendered after it. -/
theorem Format_error (L : Lib F X) (bl : Baseline F X) (p1 p2 : List GoString)
    (herr : bl.Err ≠ []) :
    Format L bl p1 = Format L bl p2 ∧
      Format L bl p1 =
        bl.Url ++ (if bl.Host ≠ [] then lit " (" ++ bl.Host ++ lit ")" else []) ++
          (if bl.Reason ≠ [] then lit " ," ++ bl.Reason else []) ++ lit " ,err: " ++ bl.Err ∧
      bl.Err <:+ Format L bl p1 := by
  have hform : ∀ p : List GoString, Format L bl p =
      bl.Url ++ (if bl.Host ≠ [] then lit " (" ++ bl.Host ++ lit ")" else []) ++
        (if bl.Reason ≠ [] then lit " ," ++ bl.Reason else []) ++ lit " ,err: " ++ bl.Err := by
    intro p
    simp only [Format, herr, ne_eq, not_false_eq_true, if_true]
    by_cases hh : bl.Host = [] <;> by_cases hr : bl.Reason = [] <;>
      simp [hh, hr, List.append_assoc]
  refine ⟨(hform p1).trans (hform p2).symm, hform p1, ?_⟩
  rw [hform p1]
  exact List.suffix_append _ _

/-- C14 (witness): a Baseline with the error `timeout`, with probes and
without. -/
theorem Format_error_witness :
    blErr.Err ≠ [] ∧
      Format specLib blErr [lit "title", lit "status"] = Format specLib blErr [] ∧
      Format specLib blErr [] = lit "/p (example.com) ,bad ,err: timeout" :=
  ⟨by decide, (Format_error specLib blErr [lit "title", lit "status"] [] (by decide)).1,
    by decide⟩

/-! ## Jsonify -/

theorem filter_key_of_nodup {α β : Type} [DecidableEq α] (l : List (α × β))
    (hnd : (l.map Prod.fst).Nodup) (m : α × β) (hm : m ∈ l) :
    l.filter (fun e => decide (e.1 = m.1)) = [m] := by
  induction l with
  | nil => simp at hm
  | cons a t ih =>
    rw [List.map_cons, List.nodup_cons] at hnd
    rcases List.mem_cons.mp hm with rfl | hmt
    · have hnone : t.filter (fun e => decide (e.1 = m.1)) = [] := by
        rw [List.filter_eq_nil_iff]
        intro e he hkey
        exact hnd.1 (by rw [← of_decide_eq_true hkey]; exact List.mem_map_of_mem _ he)
      simp [List.filter_cons, hnone]
    · have hne : ¬ a.1 = m.1 := by
        intro h
        exact hnd.1 (by rw [h]; exact List.mem_map_of_mem _ hmt)
      simp [List.filter_cons, hne, ih hnd.2 hmt]

theorem ownMembers_keys (bl : Baseline F X) : (ownMembers bl).map Prod.fst = ownKeys := rfl

theorem ownKeys_nodup : ownKeys.Nodup := by decide

theorem ofNat_toNat (b : UInt8) : UInt8.ofNat b.toNat = b :=
  UInt8.toNat.inj (UInt8.toNat_ofNat_of_lt (UInt8.toNat_lt_size b))

theorem escapeFrom_skip (k : Nat) (s : GoString) : escapeFrom k s = escapeFrom 0 (s.drop k) := by
  induction k generalizing s with
  | zero => simp
  | succ k ih =>
    cases s with
    | nil => simp [escapeFrom]
    | cons b rest => simp [escapeFrom, ih]

theorem validFrom_skip (k : Nat) (s : GoString) : validFrom k s = validFrom 0 (s.drop k) := by
  induction k generalizing s with
  | zero => simp
  | succ k ih =>
    cases s with
    | nil => simp [validFrom]
    | cons b rest => simp [validFrom, ih]



theorem unescape_plain (b : UInt8) (t : Bytes) (hb : ¬ b.toNat = 0x5C) :
    unescape (b :: t) = (unescape t).map (fun u => b :: u) := by
  rw [unescape.eq_def]
  simp only [hb, if_false]
  cases unescape t <;> rfl

theorem unescape_simple (c v : UInt8) (t : Bytes) (hc : ¬ c.toNat = 0x75)
    (hv : simpleEscape c = some v) :
    unescape ((0x5C : UInt8) :: c :: t) = (unescape t).map (fun u => v :: u) := by
  rw [unescape.eq_def]
  have h5c : (0x5C : UInt8).toNat = 0x5C := rfl
  simp only [h5c, if_true, hc, if_false, hv]
  cases unescape t <;> rfl

theorem unescape_hex (h1 h2 h3 h4 : UInt8) (x1 x2 x3 x4 : Nat) (t : Bytes)
    (e1 : hexVal h1 = some x1) (e2 : hexVal h2 = some x2) (e3 : hexVal h3 = some x3)
    (e4 : hexVal h4 = some x4) :
    unescape ((0x5C : UInt8) :: (0x75 : UInt8) :: h1 :: h2 :: h3 :: h4 :: t) =
      (unescape t).map (fun u => utf8Of (((x1 * 16 + x2) * 16 + x3) * 16 + x4) ++ u) := by
  rw [unescape.eq_def]
  have h5c : (0x5C : UInt8).toNat = 0x5C := rfl
  have h75 : (0x75 : UInt8).toNat = 0x75 := rfl
  simp only [h5c, h75, if_true, e1, e2, e3, e4]
  cases unescape t <;> rfl

theorem unescape_high_append (p t : Bytes) (hp : ∀ b ∈ p, 0x80 ≤ b.toNat) :
    unescape (p ++ t) = (unescape t).map (fun u => p ++ u) := by
  induction p with
  | nil =>
    simp only [List.nil_append]
    cases unescape t <;> rfl
  | cons b p ih =>
    have hb : ¬ b.toNat = 0x5C := by
      have := hp b (List.mem_cons_self _ _)
      omega
    rw [List.cons_append, unescape_plain b _ hb,
      ih (fun c hc => hp c (List.mem_cons_of_mem _ hc))]
    cases unescape t <;> rfl

theorem hexVal_hexDigit (n : Nat) (hn : n < 16) : hexVal (hexDigit n) = some n := by
  interval_cases n <;> decide

theorem unescape_escapeByte (b : UInt8) (t : Bytes) (hb : b.toNat < 0x80) :
    unescape (escapeByte b ++ t) = (unescape t).map (fun u => b :: u) := by
  unfold escapeByte
  by_cases h1 : b.toNat = 0x22 ∨ b.toNat = 0x5C
  · rw [if_pos h1]
    have hse : simpleEscape b = some b := by
      rcases h1 with h | h
      · have : b = 0x22 := UInt8.toNat.inj h
        subst this
        rfl
      · have : b = 0x5C := UInt8.toNat.inj h
        subst this
        rfl
    exact unescape_simple b b t (by omega) hse
  rw [if_neg h1]
  by_cases h2 : b.toNat = 0x08
  · rw [if_pos h2]
    have : b = 0x08 := UInt8.toNat.inj h2
    subst this
    exact unescape_simple 0x62 0x08 t (by decide) rfl
  rw [if_neg h2]
  by_cases h3 : b.toNat = 0x0C
  · rw [if_pos h3]
    have : b = 0x0C := UInt8.toNat.inj h3
    subst this
    exact unescape_simple 0x66 0x0C t (by decide) rfl
  rw [if_neg h3]
  by_cases h4 : b.toNat = 0x0A
  · rw [if_pos h4]
    have : b = 0x0A := UInt8.toNat.inj h4
    subst this
    exact unescape_simple 0x6E 0x0A t (by decide) rfl
  rw [if_neg h4]
  by_cases h5 : b.toNat = 0x0D
  · rw [if_pos h5]
    have : b = 0x0D := UInt8.toNat.inj h5
    subst this
    exact unescape_simple 0x72 0x0D t (by decide) rfl
  rw [if_neg h5]
  by_cases h6 : b.toNat = 0x09
  · rw [if_pos h6]
    have : b = 0x09 := UInt8.toNat.inj h6
    subst this
    exact unescape_simple 0x74 0x09 t (by decide) rfl
  rw [if_neg h6]
  by_cases h7 : b.toNat < 0x20 ∨ b.toNat = 0x3C ∨ b.toNat = 0x3E ∨ b.toNat = 0x26
  · rw [if_pos h7]
    have e := unescape_hex 0x30 0x30 (hexDigit (b.toNat / 16)) (hexDigit (b.toNat % 16))
      0 0 (b.toNat / 16) (b.toNat % 16) t rfl rfl
      (hexVal_hexDigit _ (by omega)) (hexVal_hexDigit _ (by omega))
    have hcode : ((0 * 16 + 0) * 16 + b.toNat / 16) * 16 + b.toNat % 16 = b.toNat := by omega
    rw [hcode] at e
    have hutf : utf8Of b.toNat = [b] := by
      unfold utf8Of
      rw [if_pos hb, ofNat_toNat]
    rw [hutf] at e
    exact e
  · rw [if_neg h7]
    exact unescape_plain b t (by omega)

theorem runeTail_spec (b0 : UInt8) (rest : Bytes) (h : runeTail b0 rest ≠ 0) :
    runeTail b0 rest ≤ rest.length ∧ ∀ b ∈ rest.take (runeTail b0 rest), 0x80 ≤ b.toNat := by
  cases rest with
  | nil => simp [runeTail] at h
  | cons b1 rest1 =>
    by_cases r2 : isRune2 b0 b1 = true
    · have e : runeTail b0 (b1 :: rest1) = 1 := by simp [runeTail, r2]
      rw [e]
      refine ⟨by simp, ?_⟩
      intro b hb
      simp only [List.take_succ_cons, List.take_zero, List.mem_singleton] at hb
      subst hb
      simp only [isRune2, isCont, Bool.and_eq_true, decide_eq_true_eq] at r2
      omega
    · cases rest1 with
      | nil => simp [runeTail, r2] at h
      | cons b2 rest2 =>
        by_cases r3 : isRune3 b0 b1 b2 = true
        · have e : runeTail b0 (b1 :: b2 :: rest2) = 2 := by simp [runeTail, r2, r3]
          rw [e]
          refine ⟨by simp, ?_⟩
          intro b hb
          simp only [List.take_succ_cons, List.take_zero, List.mem_cons, List.mem_singleton,
            List.not_mem_nil, or_false] at hb
          simp only [isRune3, isCont, Bool.and_eq_true, Bool.or_eq_true, decide_eq_true_eq] at r3
          rcases hb with hb | hb <;> subst hb <;> omega
        · cases rest2 with
          | nil => simp [runeTail, r2, r3] at h
          | cons b3 rest3 =>
            by_cases r4 : isRune4 b0 b1 b2 b3 = true
            · have e : runeTail b0 (b1 :: b2 :: b3 :: rest3) = 3 := by
                simp [runeTail, r2, r3, r4]
              rw [e]
              refine ⟨by simp, ?_⟩
              intro b hb
              simp only [List.take_succ_cons, List.take_zero, List.mem_cons, List.mem_singleton,
                List.not_mem_nil, or_false] at hb
              simp only [isRune4, isCont, Bool.and_eq_true, Bool.or_eq_true,
                decide_eq_true_eq] at r4
              rcases hb with hb | hb | hb <;> subst hb <;> omega
            · simp [runeTail, r2, r3, r4] at h

theorem lineSep_shape (b0 : UInt8) (rest : Bytes) (h : isLineSep b0 rest = true) :
    ∃ b2 r, rest = (0x80 : UInt8) :: b2 :: r ∧ b0 = 0xE2 ∧ (b2 = 0xA8 ∨ b2 = 0xA9) := by
  cases rest with
  | nil => simp [isLineSep] at h
  | cons b1 rest1 =>
    cases rest1 with
    | nil => simp [isLineSep] at h
    | cons b2 r =>
      simp only [isLineSep, decide_eq_true_eq] at h
      obtain ⟨h0, h1, h2⟩ := h
      exact ⟨b2, r, by rw [h1], h0, h2⟩

theorem escapeFrom_step (b0 : UInt8) (rest : Bytes) :
    escapeFrom 0 (b0 :: rest) =
      if b0.toNat < 0x80 then escapeByte b0 ++ escapeFrom 0 rest
      else if runeTail b0 rest = 0 then lit "\\ufffd" ++ escapeFrom 0 rest
      else if isLineSep b0 rest then
        (lit "\\u202" ++ [hexDigit (lineSepLast rest)]) ++ escapeFrom 2 rest
      else (b0 :: rest.take (runeTail b0 rest)) ++ escapeFrom (runeTail b0 rest) rest := by
  rw [escapeFrom]

theorem validFrom_step (b0 : UInt8) (rest : Bytes) :
    validFrom 0 (b0 :: rest) =
      if b0.toNat < 0x80 then validFrom 0 rest
      else if runeTail b0 rest = 0 then false
      else validFrom (runeTail b0 rest) rest := by
  rw [validFrom]

theorem unescape_escapeFrom (n : Nat) :
    ∀ s : GoString, s.length ≤ n → validFrom 0 s = true → unescape (escapeFrom 0 s) = some s := by
  induction n with
  | zero =>
    intro s hs _
    have : s = [] := List.length_eq_zero.mp (by omega)
    subst this
    rfl
  | succ n ih =>
    intro s hs hv
    cases s with
    | nil => rfl
    | cons b0 rest =>
      have hlen : rest.length ≤ n := by simpa using hs
      rw [validFrom_step] at hv
      rw [escapeFrom_step]
      by_cases hb : b0.toNat < 0x80
      · rw [if_pos hb] at hv
        rw [if_pos hb, unescape_escapeByte b0 _ hb, ih rest hlen hv]
        rfl
      · rw [if_neg hb] at hv
        rw [if_neg hb]
        by_cases ht : runeTail b0 rest = 0
        · rw [if_pos ht] at hv
          exact absurd hv (by decide)
        · rw [if_neg ht] at hv
          rw [if_neg ht]
          obtain ⟨hk, hhigh⟩ := runeTail_spec b0 rest ht
          rw [validFrom_skip] at hv
          by_cases hl : isLineSep b0 rest = true
          · rw [if_pos hl]
            obtain ⟨b2, r, hr, h0, h2⟩ := lineSep_shape b0 rest hl
            subst hr
            subst h0
            have hr2 : runeTail 0xE2 ((0x80 : UInt8) :: b2 :: r) = 2 := by
              rcases h2 with h2 | h2 <;> subst h2 <;> rfl
            rw [hr2] at hv
            have hrlen : r.length ≤ n := by
              simp only [List.length_cons] at hlen
              omega
            have hrec := ih r hrlen hv
            rcases h2 with h2 | h2
            · subst h2
              have e := unescape_hex 0x32 0x30 0x32 0x38 2 0 2 8 (escapeFrom 0 r) rfl rfl rfl rfl
              rw [hrec] at e
              exact e
            · subst h2
              have e := unescape_hex 0x32 0x30 0x32 0x39 2 0 2 9 (escapeFrom 0 r) rfl rfl rfl rfl
              rw [hrec] at e
              exact e
          · rw [if_neg hl, escapeFrom_skip]
            have hp : ∀ b ∈ b0 :: rest.take (runeTail b0 rest), 0x80 ≤ b.toNat := by
              intro b hbm
              rcases List.mem_cons.mp hbm with h | h
              · subst h
                omega
              · exact hhigh b h
            have hdl : (rest.drop (runeTail b0 rest)).length ≤ n := by
              rw [List.length_drop]
              omega
            rw [unescape_high_append _ _ hp, ih _ hdl hv]
            simp only [Option.map_some', List.cons_append, List.take_append_drop]




theorem digitChar_value (m : Nat) (hm : m < 10) :
    (UInt8.ofNat (Nat.digitChar m).toNat).toNat - 48 = m := by
  interval_cases m <;> decide

theorem toDigitsCore_value (fuel : Nat) :
    ∀ (n : Nat) (ds : List Char), n < fuel →
      ∃ k, ∀ acc, digitsValue acc ((Nat.toDigitsCore 10 fuel n ds).map
          (fun c => UInt8.ofNat c.toNat)) =
        digitsValue (acc * 10 ^ k + n) (ds.map (fun c => UInt8.ofNat c.toNat)) := by
  induction fuel with
  | zero => intro n ds h; omega
  | succ fuel ih =>
    intro n ds hn
    by_cases h0 : n / 10 = 0
    · refine ⟨1, fun acc => ?_⟩
      have hlt : n < 10 := by omega
      have hmod : n % 10 = n := Nat.mod_eq_of_lt hlt
      simp only [Nat.toDigitsCore, h0, if_true, List.map_cons, digitsValue, List.foldl_cons,
        pow_one, hmod, digitChar_value n hlt]
    · have hlt : n / 10 < fuel := by omega
      obtain ⟨k, hk⟩ := ih (n / 10) (Nat.digitChar (n % 10) :: ds) hlt
      refine ⟨k + 1, fun acc => ?_⟩
      simp only [Nat.toDigitsCore, h0, if_false]
      rw [hk acc]
      simp only [List.map_cons, digitsValue, List.foldl_cons,
        digitChar_value (n % 10) (Nat.mod_lt _ (by decide))]
      congr 1
      rw [pow_succ]
      have := Nat.div_add_mod n 10
      nlinarith [Nat.div_add_mod n 10]

theorem natDigits_value (n : Nat) : digitsValue 0 (natDigits n) = n := by
  obtain ⟨k, hk⟩ := toDigitsCore_value (n + 1) n [] (Nat.lt_succ_self n)
  have := hk 0
  simpa [natDigits, Nat.toDigits, digitsValue] using this

theorem natDigits_injective (a b : Nat) (h : natDigits a = natDigits b) : a = b := by
  rw [← natDigits_value a, ← natDigits_value b, h]

theorem Itoa_injective (a b : Int) (h : Itoa a = Itoa b) : a = b := by
  unfold Itoa at h
  by_cases ha : a < 0 <;> by_cases hb : b < 0
  · rw [if_pos ha, if_pos hb] at h
    have := natDigits_injective _ _ (List.cons.inj h).2
    omega
  · rw [if_pos ha, if_neg hb] at h
    exfalso
    have h1 := congrArg (digitsValue 0) h
    have h2 : digitsValue 0 ((45 : UInt8) :: natDigits a.natAbs) = a.natAbs := by
      have : digitsValue 0 ((45 : UInt8) :: natDigits a.natAbs) =
          digitsValue 0 (natDigits a.natAbs) := rfl
      rw [this, natDigits_value]
    rw [h2, natDigits_value] at h1
    rw [← h1] at h
    exact absurd (congrArg List.length h) (by simp)
  · rw [if_neg ha, if_pos hb] at h
    exfalso
    have h1 := congrArg (digitsValue 0) h
    have h2 : digitsValue 0 ((45 : UInt8) :: natDigits b.natAbs) = b.natAbs := by
      have : digitsValue 0 ((45 : UInt8) :: natDigits b.natAbs) =
          digitsValue 0 (natDigits b.natAbs) := rfl
      rw [this, natDigits_value]
    rw [h2, natDigits_value] at h1
    rw [h1] at h
    exact absurd (congrArg List.length h) (by simp)
  · rw [if_neg ha, if_neg hb] at h
    have := natDigits_injective _ _ h
    omega

theorem quote_injective (s1 s2 : GoString) (h1 : validUTF8 s1 = true)
    (h2 : validUTF8 s2 = true) (h : quote s1 = quote s2) : s1 = s2 := by
  unfold quote at h
  have he : escapeFrom 0 s1 = escapeFrom 0 s2 :=
    List.append_cancel_right (List.cons.inj h).2
  have e1 := unescape_escapeFrom s1.length s1 (le_refl _) h1
  have e2 := unescape_escapeFrom s2.length s2 (le_refl _) h2
  rw [he, e2] at e1
  exact (Option.some.inj e1).symm

theorem renderMembers_append (J : JsonLib F X) (ms ns : List (GoString × JsonValue F X))
    (ts us : List Bytes) (hm : renderMembers J ms = some ts) (hn : renderMembers J ns = some us) :
    renderMembers J (ms ++ ns) = some (ts ++ us) := by
  induction ms generalizing ts with
  | nil =>
    simp only [renderMembers, Option.some.injEq] at hm
    subst hm
    simpa using hn
  | cons m ms ih =>
    simp only [renderMembers] at hm
    cases hv : renderValue J m.2 with
    | none => simp [hv] at hm
    | some t =>
      cases hr : renderMembers J ms with
      | none => simp [hv, hr] at hm
      | some ts2 =>
        simp only [hv, hr, Option.some.injEq] at hm
        subst hm
        simp [renderMembers, hv, ih ts2 hr]

theorem renderMembers_own (J : JsonLib F X) (bl : Baseline F X) (f x : Bytes)
    (hf : J.encodeFrameworks bl.Frameworks = some f)
    (hx : J.encodeExtracteds bl.Extracteds = some x) :
    renderMembers J (ownMembers bl) =
      some [ lit "\"url\":" ++ quote bl.Url, lit "\"path\":" ++ quote bl.Path,
        lit "\"host\":" ++ quote bl.Host, lit "\"body_length\":" ++ Itoa bl.BodyLength,
        lit "\"header_length\":" ++ Itoa bl.HeaderLength,
        lit "\"redirect_url\":" ++ quote bl.RedirectURL, lit "\"status\":" ++ Itoa bl.Status,
        lit "\"is_dynamic_url\":" ++ (if bl.IsDynamicUrl then lit "true" else lit "false"),
        lit "\"spended\":" ++ Itoa bl.Spended, lit "\"title\":" ++ quote bl.Title,
        lit "\"frameworks\":" ++ f, lit "\"extracts\":" ++ x,
        lit "\"error\":" ++ quote bl.Err, lit "\"reason\":" ++ quote bl.Reason,
        lit "\"valid\":" ++ (if bl.IsValid then lit "true" else lit "false"),
        lit "\"fuzzy\":" ++ (if bl.IsFuzzy then lit "true" else lit "false") ] := by
  have k1 : quote (lit "url") ++ lit ":" = lit "\"url\":" := by decide
  have k2 : quote (lit "path") ++ lit ":" = lit "\"path\":" := by decide
  have k3 : quote (lit "host") ++ lit ":" = lit "\"host\":" := by decide
  have k4 : quote (lit "body_length") ++ lit ":" = lit "\"body_length\":" := by decide
  have k5 : quote (lit "header_length") ++ lit ":" = lit "\"header_length\":" := by decide
  have k6 : quote (lit "redirect_url") ++ lit ":" = lit "\"redirect_url\":" := by decide
  have k7 : quote (lit "status") ++ lit ":" = lit "\"status\":" := by decide
  have k8 : quote (lit "is_dynamic_url") ++ lit ":" = lit "\"is_dynamic_url\":" := by decide
  have k9 : quote (lit "spended") ++ lit ":" = lit "\"spended\":" := by decide
  have k10 : quote (lit "title") ++ lit ":" = lit "\"title\":" := by decide
  have k11 : quote (lit "frameworks") ++ lit ":" = lit "\"frameworks\":" := by decide
  have k12 : quote (lit "extracts") ++ lit ":" = lit "\"extracts\":" := by decide
  have k13 : quote (lit "error") ++ lit ":" = lit "\"error\":" := by decide
  have k14 : quote (lit "reason") ++ lit ":" = lit "\"reason\":" := by decide
  have k15 : quote (lit "valid") ++ lit ":" = lit "\"valid\":" := by decide
  have k16 : quote (lit "fuzzy") ++ lit ":" = lit "\"fuzzy\":" := by decide
  simp only [ownMembers, renderMembers, renderValue, hf, hx, k1, k2, k3, k4, k5, k6, k7, k8, k9,
    k10, k11, k12, k13, k14, k15, k16]

theorem renderMembers_fail (J : JsonLib F X) (ms ns : List (GoString × JsonValue F X))
    (m : GoString × JsonValue F X) (hm : renderValue J m.2 = none) :
    renderMembers J (ms ++ m :: ns) = none := by
  induction ms with
  | nil => simp [renderMembers, hm]
  | cons a ms ih =>
    rw [List.cons_append, renderMembers, ih]
    cases renderValue J a.2 <;> rfl

/-- C15 (as amended): the output of Jsonify is the same when only `Body`,
`Header` and `Raw` are changed, and the struct declares no member for them:
its members are named url, path, host, body_length, header_length,
redirect_url, status, is_dynamic_url, spended, title, frameworks, extracts,
error, reason, valid and fuzzy, and the object has exactly one member of each
of these names. When the encoding of the frameworks and of the extractions
returns no error, the document is the JSON object of these sixteen members
in this order, followed by the promoted members of a hash bundle that is
present: integers in decimal, booleans as `true` or `false`, strings quoted.
The rendering is exact for integers and for strings that are valid UTF-8:
different values have different texts. When one of the two encodings returns
an error, the output is the empty string. -/
theorem Jsonify_document (J : JsonLib F X) (bl : Baseline F X) (body header raw : Bytes) :
    Jsonify J { bl with Body := body, Header := header, Raw := raw } = Jsonify J bl ∧
    ((ownMembers bl).map Prod.fst = ownKeys ∧
      ∀ m ∈ ownMembers bl, (jsonMembers J bl).filter (fun e => decide (e.1 = m.1)) = [m]) ∧
    (∀ f x ps, J.encodeFrameworks bl.Frameworks = some f →
      J.encodeExtracteds bl.Extracteds = some x →
      renderMembers J (promotedMembers J bl) = some ps →
      Jsonify J bl =
        lit "\x7b" ++
          joinComma
            ([ lit "\"url\":" ++ quote bl.Url, lit "\"path\":" ++ quote bl.Path,
              lit "\"host\":" ++ quote bl.Host, lit "\"body_length\":" ++ Itoa bl.BodyLength,
              lit "\"header_length\":" ++ Itoa bl.HeaderLength,
              lit "\"redirect_url\":" ++ quote bl.RedirectURL,
              lit "\"status\":" ++ Itoa bl.Status,
              lit "\"is_dynamic_url\":" ++ (if bl.IsDynamicUrl then lit "true" else lit "false"),
              lit "\"spended\":" ++ Itoa bl.Spended, lit "\"title\":" ++ quote bl.Title,
              lit "\"frameworks\":" ++ f, lit "\"extracts\":" ++ x,
              lit "\"error\":" ++ quote bl.Err, lit "\"reason\":" ++ quote bl.Reason,
              lit "\"valid\":" ++ (if bl.IsValid then lit "true" else lit "false"),
              lit "\"fuzzy\":" ++ (if bl.IsFuzzy then lit "true" else lit "false") ] ++ ps) ++
          lit "\x7d") ∧
    (bl.Hashes = none → promotedMembers J bl = []) ∧
    ((∀ s1 s2 : GoString, validUTF8 s1 = true → validUTF8 s2 = true →
        quote s1 = quote s2 → s1 = s2) ∧
      ∀ a b : Int, Itoa a = Itoa b → a = b) ∧
    (J.encodeFrameworks bl.Frameworks = none ∨ J.encodeExtracteds bl.Extracteds = none →
      Jsonify J bl = []) := by
  refine ⟨rfl, ⟨rfl, ?_⟩, ?_, ?_, ⟨quote_injective, Itoa_injective⟩, ?_⟩
  · intro m hm
    have hown : (ownMembers bl).filter (fun e => decide (e.1 = m.1)) = [m] :=
      filter_key_of_nodup (ownMembers bl) (by rw [ownMembers_keys]; exact ownKeys_nodup) m hm
    have hkey : (ownMembers bl).any (fun o => decide (o.1 = m.1)) = true :=
      List.any_eq_true.mpr ⟨m, hm, by simp⟩
    unfold jsonMembers promotedMembers
    rw [List.filter_append, hown]
    cases hh : bl.Hashes with
    | none => simp
    | some h =>
      have hnil : ((J.hashMembers h).filter
          (fun m => !(ownMembers bl).any (fun o => decide (o.1 = m.1)))).filter
          (fun e => decide (e.1 = m.1)) = [] := by
        rw [List.filter_eq_nil_iff]
        intro e he hem
        have he2 := (List.mem_filter.mp he).2
        rw [of_decide_eq_true hem, hkey] at he2
        simp at he2
      simp [hnil]
  · intro f x ps hf hx hps
    unfold Jsonify jsonMarshal jsonMembers
    rw [renderMembers_append J _ _ _ _ (renderMembers_own J bl f x hf hx) hps]
  · intro hh
    simp [promotedMembers, hh]
  · intro herr
    have hsplit : jsonMembers J bl =
        [ (lit "url", JsonValue.str bl.Url), (lit "path", .str bl.Path),
          (lit "host", .str bl.Host), (lit "body_length", .int bl.BodyLength),
          (lit "header_length", .int bl.HeaderLength),
          (lit "redirect_url", .str bl.RedirectURL), (lit "status", .int bl.Status),
          (lit "is_dynamic_url", .bool bl.IsDynamicUrl), (lit "spended", .int bl.Spended),
          (lit "title", .str bl.Title) ] ++
        (lit "frameworks", .frameworks bl.Frameworks) ::
          ([ (lit "extracts", .extracteds bl.Extracteds) ] ++
            ((lit "error", .str bl.Err) :: (lit "reason", .str bl.Reason) ::
              (lit "valid", .bool bl.IsValid) :: (lit "fuzzy", .bool bl.IsFuzzy) ::
              promotedMembers J bl)) := rfl
    have hsplit2 : jsonMembers J bl =
        [ (lit "url", JsonValue.str bl.Url), (lit "path", .str bl.Path),
          (lit "host", .str bl.Host), (lit "body_length", .int bl.BodyLength),
          (lit "header_length", .int bl.HeaderLength),
          (lit "redirect_url", .str bl.RedirectURL), (lit "status", .int bl.Status),
          (lit "is_dynamic_url", .bool bl.IsDynamicUrl), (lit "spended", .int bl.Spended),
          (lit "title", .str bl.Title), (lit "frameworks", .frameworks bl.Frameworks) ] ++
        (lit "extracts", .extracteds bl.Extracteds) ::
          ((lit "error", .str bl.Err) :: (lit "reason", .str bl.Reason) ::
            (lit "valid", .bool bl.IsValid) :: (lit "fuzzy", .bool bl.IsFuzzy) ::
            promotedMembers J bl) := rfl
    have hnone : renderMembers J (jsonMembers J bl) = none := by
      rcases herr with hf | hx
      · rw [hsplit]
        exact renderMembers_fail J _ _ _ hf
      · rw [hsplit2]
        exact renderMembers_fail J _ _ _ hx
    unfold Jsonify jsonMarshal
    rw [hnone]

set_option maxRecDepth 100000 in
/-- C15 (witness): the document of a collected Baseline, with the two
members of its hash bundle; it is the same after the body, the header and the
raw bytes are replaced. -/
theorem Jsonify_document_witness :
    Jsonify specJson { blPlain with Body := lit "other", Header := lit "h", Raw := [] } =
        Jsonify specJson blPlain ∧
      Jsonify specJson blPlain =
        lit ("\x7b\"url\":\"/p\",\"path\":\"/p\",\"host\":\"\",\"body_length\":1," ++
          "\"header_length\":11,\"redirect_url\":\"\",\"status\":200," ++
          "\"is_dynamic_url\":false,\"spended\":0,\"title\":\"\",\"frameworks\":null," ++
          "\"extracts\":null,\"error\":\"\",\"reason\":\"\",\"valid\":true,\"fuzzy\":false," ++
          "\"body-md5\":\"Server: x\\r\\nB\",\"body-simhash\":\"Server: x\\r\\nB\"\x7d") :=
  ⟨(Jsonify_document specJson blPlain (lit "other") (lit "h") []).1, by decide⟩

set_option maxRecDepth 100000 in
/-- C15 (counterexample): two Baselines that differ in their URL, the byte
`0xff` and the byte `0xfe`, neither valid UTF-8, have the same document: its
member `url` is the replacement character in both, not the value of the
field. -/
theorem Jsonify_document_counterexample :
    blBadA.Url ≠ blBadB.Url ∧ Jsonify specJson blBadA = Jsonify specJson blBadB ∧
      stringsContains (Jsonify specJson blBadA) (lit "\"url\":\"\\ufffd\"") = true := by
  decide

/-! ## Collect on an empty body -/

/-- C16 (as amended): on a Baseline whose body is empty, Collect leaves the
title as it is, so an empty title stays empty, and changes nothing but the
hash bundle, the extractions and the frameworks, which it computes from
`Raw`. -/
theorem Collect_empty_body (L : Lib F X) (bl : Baseline F X) (hbody : bl.Body = []) :
    (Collect L bl).Title = bl.Title ∧
      (bl.Title = [] → (Collect L bl).Title = []) ∧
      Collect L bl =
        { bl with
          Hashes := some (L.NewHashes bl.Raw)
          Extracteds := L.Extract bl.Raw
          Frameworks := L.FingerDetect bl.Raw } := by
  have ht : (Collect L bl).Title = bl.Title := by simp [Collect, hbody]
  refine ⟨ht, fun h => ht.trans h, ?_⟩
  simp [Collect, hbody]

/-- C16 (witness): the constructed Baseline of a response with an empty body. -/
theorem Collect_empty_body_witness :
    blEmpty.Body = [] ∧ (Collect specLib blEmpty).Title = [] ∧
      (Collect specLib blEmpty).Hashes = some (specLib.NewHashes blEmpty.Raw) :=
  ⟨rfl, (Collect_empty_body specLib blEmpty rfl).2.1 rfl,
    congrArg Baseline.Hashes (Collect_empty_body specLib blEmpty rfl).2.2⟩

/-- C16 (counterexample): the constructed Baseline of a response with an
empty body has no hash bundle before Collect and has one after it, so Collect
is not a no-op on it. -/
theorem Collect_empty_body_counterexample :
    blEmpty.Body = [] ∧ Collect specLib blEmpty ≠ blEmpty :=
  ⟨rfl, fun h => absurd (congrArg Baseline.Hashes h) (by decide)⟩

/-! ## Compare: empty path, dependence -/

/-- C17 (as amended): with a hash bundle on the base and an empty candidate
path, Compare returns a verdict that is never Different (-1): Identical (1)
when the redirect rule applies, and, when it does not and the body lengths
differ by 16 or more (the difference being the int subtraction of the code),
Ambiguous (0). -/
theorem Compare_empty_path (L : Lib F X) (base cand : Baseline F X) (h : Hashes)
    (hh : base.Hashes = some h) (hpath : cand.Path = []) :
    (Compare L base cand = some 1 ∨ Compare L base cand = some 0) ∧
      Compare L base cand ≠ some (-1) ∧
      (cand.RedirectURL ≠ [] ∧ base.RedirectURL = cand.RedirectURL →
        Compare L base cand = some 1) ∧
      (¬ (cand.RedirectURL ≠ [] ∧ base.RedirectURL = cand.RedirectURL) →
        16 ≤ (intSub base.BodyLength cand.BodyLength).natAbs →
        Compare L base cand = some 0) := by
  have hcont : stringsContains cand.Body cand.Path = true := by
    rw [stringsContains_iff, hpath]
    exact List.nil_infix
  have hred1 : cand.RedirectURL ≠ [] ∧ base.RedirectURL = cand.RedirectURL →
      Compare L base cand = some 1 := by
    intro hr
    simp [Compare, hr.1, hr.2]
  have hfar0 : ¬ (cand.RedirectURL ≠ [] ∧ base.RedirectURL = cand.RedirectURL) →
      16 ≤ (intSub base.BodyLength cand.BodyLength).natAbs →
      Compare L base cand = some 0 := by
    intro hr hfar
    have hnot : lengthNear base.BodyLength cand.BodyLength = false := by
      simp only [lengthNear, decide_eq_false_iff_not, not_lt]
      exact hfar
    simp [Compare, hr, hnot, hcont]
  have hverdict : Compare L base cand = some 1 ∨ Compare L base cand = some 0 := by
    by_cases hr : cand.RedirectURL ≠ [] ∧ base.RedirectURL = cand.RedirectURL
    · exact Or.inl (hred1 hr)
    · by_cases hfar : 16 ≤ (intSub base.BodyLength cand.BodyLength).natAbs
      · exact Or.inr (hfar0 hr hfar)
      · have hnear : lengthNear base.BodyLength cand.BodyLength = true := by
          simp only [lengthNear, decide_eq_true_eq]
          omega
        by_cases hmd : h.BodyMd5 = L.Md5Hash cand.Body
        · left
          simp [Compare, hr, hnear, hh, hmd]
        · right
          simp [Compare, hr, hnear, hh, hmd]
  refine ⟨hverdict, ?_, hred1, hfar0⟩
  rcases hverdict with h1 | h0
  · rw [h1]
    decide
  · rw [h0]
    decide

/-- C17 (witness): a collected base of declared length 500 and a candidate
of declared length 900 with an empty path and no redirect: Ambiguous. -/
theorem Compare_empty_path_witness :
    bl500.Hashes = some (specLib.NewHashes bl500.Raw) ∧ blNoPathFar.Path = [] ∧
      Compare specLib bl500 blNoPathFar = some 0 :=
  ⟨rfl, rfl,
    (Compare_empty_path specLib bl500 blNoPathFar (specLib.NewHashes bl500.Raw) rfl rfl).2.2.2
      (by decide) (by decide)⟩

/-- C17 (counterexample): a collected base and a candidate with an empty
path that redirect to the same place, with declared lengths 1 and 900: the
lengths differ by more than 16 and Compare gives Identical (1), not
Ambiguous. -/
theorem Compare_empty_path_counterexample :
    blBaseLogin.Hashes ≠ none ∧ blNoPath.Path = [] ∧
      16 ≤ (blBaseLogin.BodyLength - blNoPath.BodyLength).natAbs ∧
      Compare specLib blBaseLogin blNoPath = some 1 := by
  decide

/-- C19: the result of Compare is a function of the redirect URL, the body
length and the stored content hash of the base (its absence included) and of
the redirect URL, the body length, the body and the path of the candidate:
two calls that agree on these give the same result, whatever the other
fields are and whether or not the candidate has a hash bundle. -/
theorem Compare_depends_only (L : Lib F X) (base1 base2 cand1 cand2 : Baseline F X)
    (hbr : base1.RedirectURL = base2.RedirectURL)
    (hbl : base1.BodyLength = base2.BodyLength)
    (hbh : base1.Hashes.map Hashes.BodyMd5 = base2.Hashes.map Hashes.BodyMd5)
    (hcr : cand1.RedirectURL = cand2.RedirectURL)
    (hcl : cand1.BodyLength = cand2.BodyLength)
    (hcb : cand1.Body = cand2.Body)
    (hcp : cand1.Path = cand2.Path) :
    Compare L base1 cand1 = Compare L base2 cand2 := by
  unfold Compare
  rw [hbr, hbl, hcr, hcl, hcb, hcp]
  cases h1 : base1.Hashes with
  | none =>
    cases h2 : base2.Hashes with
    | none => rfl
    | some b => simp [h1, h2] at hbh
  | some a =>
    cases h2 : base2.Hashes with
    | none => simp [h1, h2] at hbh
    | some b =>
      have hab : a.BodyMd5 = b.BodyMd5 := by simpa [h1, h2] using hbh
      simp only [hab]

/-- C19 (witness): the base with another body, path, status, title and
validity, and the candidate collected and with another status and title,
give the verdict of the original pair. -/
theorem Compare_depends_only_witness :
    bl500.Body ≠ bl500Other.Body ∧ bl500.Path ≠ bl500Other.Path ∧
      bl500.Status ≠ bl500Other.Status ∧ bl505.Hashes ≠ bl505Other.Hashes ∧
      Compare specLib bl500 bl505 = Compare specLib bl500Other bl505Other :=
  ⟨by decide, by decide, by decide, by decide,
    Compare_depends_only specLib bl500 bl500Other bl505 bl505Other rfl rfl rfl rfl rfl rfl rfl⟩

/-! ## FuzzyCompare at the initial threshold -/

/-- C18: with the threshold `Distance` at its initial value 0, FuzzyCompare
gives false for every pair of collected Baselines, a Baseline with itself
included. -/
theorem FuzzyCompare_zero (L : Lib F X) (a b : Baseline F X) :
    FuzzyCompare L 0 (Collect L a) (Collect L b) = some false ∧
      FuzzyCompare L 0 (Collect L a) (Collect L a) = some false := by
  constructor <;> simp [FuzzyCompare, Collect]

/-! ## Get on the hash keys -/

/-- C20: for every Baseline `Get("mmh3")` equals `Get("simhash")`; with a hash
bundle both are its signature rendering, and without one `Get` gives the
empty string for `md5`, `simhash` and `mmh3`. -/
theorem Get_hash_keys (L : Lib F X) (bl : Baseline F X) :
    Get L bl (lit "mmh3") = Get L bl (lit "simhash") ∧
      (∀ h, bl.Hashes = some h →
        Get L bl (lit "simhash") = h.BodySimhash ∧ Get L bl (lit "mmh3") = h.BodySimhash ∧
          Get L bl (lit "md5") = h.BodyMd5) ∧
      (bl.Hashes = none →
        Get L bl (lit "md5") = [] ∧ Get L bl (lit "simhash") = [] ∧
          Get L bl (lit "mmh3") = []) := by
  have hs : Get L bl (lit "simhash") =
      (match bl.Hashes with
       | some h => h.BodySimhash
       | none => []) := rfl
  have hm : Get L bl (lit "mmh3") =
      (match bl.Hashes with
       | some h => h.BodySimhash
       | none => []) := rfl
  have hd : Get L bl (lit "md5") =
      (match bl.Hashes with
       | some h => h.BodyMd5
       | none => []) := rfl
  refine ⟨hm.trans hs.symm, ?_, ?_⟩
  · intro h hh
    rw [hs, hm, hd, hh]
    exact ⟨rfl, rfl, rfl⟩
  · intro hh
    rw [hs, hm, hd, hh]
    exact ⟨rfl, rfl, rfl⟩

/-- C20 (witness): a collected Baseline, whose signature rendering is not
empty, and a constructed one without hash bundle. -/
theorem Get_hash_keys_witness :
    (Get specLib blPlain (lit "mmh3") = Get specLib blPlain (lit "simhash") ∧
        Get specLib blPlain (lit "mmh3") ≠ []) ∧
      (blEmpty.Hashes = none ∧ Get specLib blEmpty (lit "md5") = []) :=
  ⟨⟨(Get_hash_keys specLib blPlain).1, by decide⟩,
    ⟨rfl, ((Get_hash_keys specLib blEmpty).2.2 rfl).1⟩⟩

end Spray
